import Mathlib

/-!
Shallow embedding of the LoveCakes storefront core: the cart aggregation
engine (`functional.spCartAdd`) and the catalog query engine
(`functional.spProductList`, `functional.spProductGet`,
`functional.spProductRelated`) together with the thin TypeScript service
layer (`productRules.ts`, `cartRules.ts`).

Modelling conventions:
* SQL `NUMERIC(18,6)` money values are exact decimals; they are modelled as
  scaled integers (`Int`), which preserves all additions, multiplications by
  integer quantities, and order comparisons used by the code.
* SQL `NULL`-able columns and variables are `Option _`; `SELECT @v = ...`
  that matches no row leaves the variable `NULL`, hence `Option`.
* Tables are `List`s of rows; a SQL query is translated clause by clause
  (joins become `flatMap`, `WHERE` becomes a boolean guard, `EXISTS`
  becomes `List.any`, `ORDER BY` becomes an insertion sort by the same key
  chain).  `ORDER BY` in SQL only fixes the order up to the key chain; the
  deterministic sort here is one compliant order, and all ordering theorems
  are `Sorted`/membership facts that hold for every compliant order.
* Required (`NOT NULL`-checked) procedure parameters are modelled as plain
  `Int`: the service layer always supplies them, so the `IS NULL` guard
  branches of the procedures are unreachable and are not represented.
* Comma-separated id-list parameters are modelled as `Option (List Int)`
  (the controller splits the string before the call).
* `DATETIME2` values are modelled as `Int` timestamps (only their order is
  used).
-/

namespace Shop

/-! ## Ordering primitives

SQL comparisons on numbers and on strings (case-sensitive collation for
`ORDER BY [name]` is modelled by code-point order).  Three-way comparators
are combined with `compareLex`, mirroring a multi-key `ORDER BY`. -/

/-- Three-way comparison of integers. -/
def cmpInt (a b : Int) : Ordering :=
  if a < b then .lt else if b < a then .gt else .eq

/-- Three-way lexicographic comparison of character lists by code point. -/
def cmpChars : List Char → List Char → Ordering
  | [], [] => .eq
  | [], _ :: _ => .lt
  | _ :: _, [] => .gt
  | a :: as, b :: bs =>
    if a.toNat < b.toNat then .lt
    else if b.toNat < a.toNat then .gt
    else cmpChars as bs

/-- Three-way comparison of strings by code-point order. -/
def cmpStr (a b : String) : Ordering := cmpChars a.data b.data

/-- Compare through an integer key, ascending. -/
def cmpOn (f : α → Int) (a b : α) : Ordering := cmpInt (f a) (f b)

/-- Compare through an integer key, descending (`ORDER BY ... DESC`). -/
def cmpOnDesc (f : α → Int) (a b : α) : Ordering := cmpInt (f b) (f a)

/-- Compare through a string key, ascending. -/
def cmpOnStr (f : α → String) (a b : α) : Ordering := cmpStr (f a) (f b)

/-- A conditionally active sort key: `ORDER BY CASE WHEN cond THEN k END`.
When `cond` is false the key is `NULL` for every row, so all rows tie. -/
def caseCmp (cond : Bool) (c : α → α → Ordering) (a b : α) : Ordering :=
  if cond then c a b else .eq

instance [DecidableEq ε] [DecidableEq α] : DecidableEq (Except ε α) := fun a b =>
  match a, b with
  | .error e, .error f =>
    if h : e = f then .isTrue (h ▸ rfl) else .isFalse fun hh => h (Except.error.inj hh)
  | .ok x, .ok y =>
    if h : x = y then .isTrue (h ▸ rfl) else .isFalse fun hh => h (Except.ok.inj hh)
  | .error _, .ok _ => .isFalse Except.noConfusion
  | .ok _, .error _ => .isFalse Except.noConfusion

/-- The non-strict order induced by a three-way comparator. -/
def leOfCmp (c : α → α → Ordering) (a b : α) : Prop := c a b ≠ Ordering.gt

instance (c : α → α → Ordering) : DecidableRel (leOfCmp c) := fun a b =>
  inferInstanceAs (Decidable (c a b ≠ Ordering.gt))

/-- Sort a list by a three-way comparator (the model of `ORDER BY`). -/
def sortByCmp (c : α → α → Ordering) (l : List α) : List α :=
  List.insertionSort (leOfCmp c) l

/-! ## Case-insensitive substring search

`LIKE '%term%'` under the default case-insensitive collation: both sides
are lowercased (ASCII) and an infix check is performed. -/

/-- ASCII lowercasing on code points. -/
def lowerNat (n : Nat) : Nat := if 65 ≤ n ∧ n ≤ 90 then n + 32 else n

/-- Does `hay` contain `pat` as a contiguous sublist? -/
def hasInfixN (pat : List Nat) : List Nat → Bool
  | [] => pat.isEmpty
  | h :: t => pat.isPrefixOf (h :: t) || hasInfixN pat t

/-- `hay LIKE '%' + pat + '%'` under a case-insensitive collation. -/
def containsCI (hay pat : String) : Bool :=
  hasInfixN (pat.data.map (fun c => lowerNat c.toNat))
    (hay.data.map (fun c => lowerNat c.toNat))

/-! ## Data model

Row types for the `functional` schema tables, with only the columns the
embedded routines read. -/

structure Product where
  idProduct : Int
  idAccount : Int
  idConfectioner : Int
  idCategory : Int
  name : String
  description : String
  ingredients : Option String
  nutritionalInfo : Option String
  basePrice : Int
  promotionalPrice : Option Int
  mainImage : String
  imageGallery : Option String
  averageRating : Int
  totalReviews : Int
  preparationTime : String
  available : Bool
  active : Bool
  deleted : Bool
deriving DecidableEq

structure Confectioner where
  idConfectioner : Int
  idAccount : Int
  name : String
  photo : Option String
  averageRating : Int
  totalProductsSold : Int
  deleted : Bool
deriving DecidableEq

structure Category where
  idCategory : Int
  idAccount : Int
  name : String
  deleted : Bool
deriving DecidableEq

structure Flavor where
  idFlavor : Int
  idAccount : Int
  name : String
  deleted : Bool
deriving DecidableEq

structure Size where
  idSize : Int
  idAccount : Int
  name : String
  description : String
  priceModifier : Int
  deleted : Bool
deriving DecidableEq

structure ProductFlavor where
  idAccount : Int
  idProduct : Int
  idFlavor : Int
  available : Bool
deriving DecidableEq

structure ProductSize where
  idAccount : Int
  idProduct : Int
  idSize : Int
  available : Bool
deriving DecidableEq

structure Review where
  idReview : Int
  idAccount : Int
  idProduct : Int
  customerName : String
  rating : Int
  comment : Option String
  dateCreated : Int
  deleted : Bool
deriving DecidableEq

structure CartLine where
  idCart : Int
  idAccount : Int
  idUser : Int
  idProduct : Int
  idFlavor : Int
  idSize : Int
  quantity : Int
  unitPrice : Option Int
  totalPrice : Option Int
  notes : Option String
deriving DecidableEq

/-- The relational store.  `nextCartId` models the `IDENTITY` counter of
the `cart` table (`SCOPE_IDENTITY()` after an insert). -/
structure DB where
  products : List Product
  confectioners : List Confectioner
  categories : List Category
  flavors : List Flavor
  sizes : List Size
  productFlavors : List ProductFlavor
  productSizes : List ProductSize
  reviews : List Review
  cart : List CartLine
  nextCartId : Int
deriving DecidableEq

/-! ## Cart aggregation engine: `functional.spCartAdd`

The procedure body falls in two phases:
* everything before `BEGIN TRAN` — the validations, the price computation
  and the cart-line lookup (`cartAddPrepare`);
* the `BEGIN TRAN ... COMMIT` block and the final `SELECT`
  (`cartAddCommit`).
The sequential procedure is the composition of the two; modelling the
phases separately also lets two interleaved executions be analysed, which
the lookup-before-transaction structure of the source makes meaningful. -/

inductive CartErr where
  | invalidQuantity
  | productNotAvailable
  | flavorNotAvailable
  | sizeNotAvailable
  | quantityExceedsLimit
deriving DecidableEq

structure CartArgs where
  idAccount : Int
  idUser : Int
  idProduct : Int
  idFlavor : Int
  idSize : Int
  quantity : Int
  notes : Option String
deriving DecidableEq

/-- The output row of the final `SELECT` of `spCartAdd`. -/
structure CartResult where
  idCart : Int
  quantity : Int
  unitPrice : Option Int
  totalPrice : Option Int
deriving DecidableEq

/-- Validation: product exists for the account, non-deleted, active,
available. -/
def productAvailableB (db : DB) (acc prd : Int) : Bool :=
  db.products.any fun p =>
    p.idProduct == prd && p.idAccount == acc && !p.deleted && p.active && p.available

/-- Validation: the flavor is registered as available for the product. -/
def flavorAvailableB (db : DB) (acc prd flv : Int) : Bool :=
  db.productFlavors.any fun pf =>
    pf.idAccount == acc && pf.idProduct == prd && pf.idFlavor == flv && pf.available

/-- Validation: the size is registered as available for the product. -/
def sizeAvailableB (db : DB) (acc prd siz : Int) : Bool :=
  db.productSizes.any fun ps =>
    ps.idAccount == acc && ps.idProduct == prd && ps.idSize == siz && ps.available

/-- `SELECT @basePrice = ISNULL(promotionalPrice, basePrice) FROM product
WHERE idProduct = @idProduct AND idAccount = @idAccount` — `NULL` when no
row matches. -/
def effectiveBasePrice (db : DB) (acc prd : Int) : Option Int :=
  (db.products.find? fun p => p.idProduct == prd && p.idAccount == acc).map
    fun p => p.promotionalPrice.getD p.basePrice

/-- `SELECT @priceModifier = priceModifier FROM size WHERE idSize = @idSize
AND idAccount = @idAccount`. -/
def sizePriceModifier (db : DB) (acc siz : Int) : Option Int :=
  (db.sizes.find? fun s => s.idSize == siz && s.idAccount == acc).map
    fun s => s.priceModifier

/-- `@unitPrice = @basePrice + @priceModifier` (NULL-propagating). -/
def freshUnitPrice (db : DB) (acc prd siz : Int) : Option Int :=
  match effectiveBasePrice db acc prd, sizePriceModifier db acc siz with
  | some b, some m => some (b + m)
  | _, _ => none

/-- Does a cart line match the (account, user, product, flavor, size)
key of the call? -/
def keyMatchB (a : CartArgs) (c : CartLine) : Bool :=
  c.idAccount == a.idAccount && c.idUser == a.idUser &&
    c.idProduct == a.idProduct && c.idFlavor == a.idFlavor && c.idSize == a.idSize

/-- The cart-line lookup preceding the transaction. -/
def findCartLine (db : DB) (a : CartArgs) : Option CartLine :=
  db.cart.find? (keyMatchB a)

/-- The local state of one `spCartAdd` execution after the pre-transaction
phase: `@unitPrice`, and `@idCart`/`@existingQuantity` when a line was
found. -/
structure CartPrep where
  unitPrice : Option Int
  found : Option (Int × Int)
deriving DecidableEq

/-- Validations, price computation and cart lookup of `spCartAdd` —
everything the procedure runs before `BEGIN TRAN`. -/
def cartAddPrepare (db : DB) (a : CartArgs) : Except CartErr CartPrep :=
  if a.quantity < 1 ∨ a.quantity > 10 then .error .invalidQuantity
  else if ¬ productAvailableB db a.idAccount a.idProduct then .error .productNotAvailable
  else if ¬ flavorAvailableB db a.idAccount a.idProduct a.idFlavor then .error .flavorNotAvailable
  else if ¬ sizeAvailableB db a.idAccount a.idProduct a.idSize then .error .sizeNotAvailable
  else
    .ok { unitPrice := freshUnitPrice db a.idAccount a.idProduct a.idSize
          found := (findCartLine db a).map fun c => (c.idCart, c.quantity) }

/-- The `UPDATE cart SET quantity = @newQuantity, totalPrice = @unitPrice *
@newQuantity, notes = ISNULL(@notes, notes) WHERE idCart = @idCart`
statement, as the per-row effect. -/
def mergeUpdate (a : CartArgs) (u : Option Int) (newQuantity idCart : Int)
    (c : CartLine) : CartLine :=
  if c.idCart == idCart then
    { c with
      quantity := newQuantity
      totalPrice := u.map (· * newQuantity)
      notes := match a.notes with | some n => some n | none => c.notes }
  else c

/-- The final `SELECT idCart, quantity, unitPrice, totalPrice FROM cart
WHERE idCart = @idCart` (no row when the id is absent). -/
def readCartRow (db : DB) (idCart : Int) : Option CartResult :=
  (db.cart.find? fun c => c.idCart == idCart).map fun c =>
    { idCart := c.idCart, quantity := c.quantity
      unitPrice := c.unitPrice, totalPrice := c.totalPrice }

/-- The new cart row of the `INSERT` branch. -/
def insertedLine (db : DB) (a : CartArgs) (u : Option Int) : CartLine :=
  { idCart := db.nextCartId
    idAccount := a.idAccount, idUser := a.idUser
    idProduct := a.idProduct, idFlavor := a.idFlavor, idSize := a.idSize
    quantity := a.quantity
    unitPrice := u
    totalPrice := u.map (· * a.quantity)
    notes := a.notes }

/-- The `BEGIN TRAN ... COMMIT` block of `spCartAdd` plus the final
`SELECT`, applied to the store state at commit time.  A thrown error
reaches the `CATCH`, which rolls the transaction back and rethrows, so an
`error` outcome leaves the store untouched. -/
def cartAddCommit (db : DB) (a : CartArgs) (p : CartPrep) :
    Except CartErr (DB × Option CartResult) :=
  match p.found with
  | some (idCart, existingQuantity) =>
    let newQuantity := existingQuantity + a.quantity
    if newQuantity > 10 then .error .quantityExceedsLimit
    else
      let db' := { db with cart := db.cart.map (mergeUpdate a p.unitPrice newQuantity idCart) }
      .ok (db', readCartRow db' idCart)
  | none =>
    let db' := { db with
      cart := db.cart ++ [insertedLine db a p.unitPrice]
      nextCartId := db.nextCartId + 1 }
    .ok (db', readCartRow db' db.nextCartId)

/-- `functional.spCartAdd`, sequential execution: the pre-transaction phase
followed by the transactional write against the same store state. -/
def spCartAdd (db : DB) (a : CartArgs) : Except CartErr (DB × Option CartResult) :=
  (cartAddPrepare db a).bind (cartAddCommit db a)

/-! ## Store well-formedness

Key constraints of the relational schema, used as hypotheses: primary keys
are unique, the identity counter is fresh, and `productSize` rows reference
existing `size` rows. -/

/-- No two cart lines share the `idCart` primary key. -/
def CartIdsUnique (db : DB) : Prop :=
  db.cart.Pairwise fun x y => x.idCart ≠ y.idCart

/-- No two cart lines share the (account, user, product, flavor, size)
natural key. -/
def CartKeysUnique (db : DB) : Prop :=
  db.cart.Pairwise fun x y =>
    ¬ (x.idAccount = y.idAccount ∧ x.idUser = y.idUser ∧ x.idProduct = y.idProduct ∧
       x.idFlavor = y.idFlavor ∧ x.idSize = y.idSize)

/-! ## Catalog query engine: `functional.spProductList` -/

inductive ListErr where
  | invalidPageNumber
deriving DecidableEq

/-- The parameters of `spProductList` after the controller has split the
comma-separated id lists. -/
structure ListParams where
  page : Int := 1
  pageSize : Int := 12
  sortBy : String := "relevancia"
  categoryIds : Option (List Int) := none
  flavorIds : Option (List Int) := none
  sizeIds : Option (List Int) := none
  minPrice : Option Int := none
  maxPrice : Option Int := none
  confectionerIds : Option (List Int) := none
  searchTerm : Option String := none
  availableOnly : Bool := true
deriving DecidableEq

/-- One output row of the `FilteredProducts` projection. -/
structure ListRow where
  idProduct : Int
  name : String
  description : String
  basePrice : Int
  promotionalPrice : Option Int
  mainImage : String
  averageRating : Int
  totalReviews : Int
  preparationTime : String
  available : Bool
  confectionerName : String
  categoryName : String
deriving DecidableEq

/-- The `SELECT` projection of the `FilteredProducts` CTE. -/
def mkListRow (prd : Product) (cnf : Confectioner) (cat : Category) : ListRow :=
  { idProduct := prd.idProduct
    name := prd.name
    description := prd.description
    basePrice := prd.basePrice
    promotionalPrice := prd.promotionalPrice
    mainImage := prd.mainImage
    averageRating := prd.averageRating
    totalReviews := prd.totalReviews
    preparationTime := prd.preparationTime
    available := prd.available
    confectionerName := cnf.name
    categoryName := cat.name }

/-- The `JOIN ... ON` conditions of the `FilteredProducts` CTE. -/
def listJoinB (prd : Product) (cnf : Confectioner) (cat : Category) : Bool :=
  cnf.idAccount == prd.idAccount && cnf.idConfectioner == prd.idConfectioner &&
    cat.idAccount == prd.idAccount && cat.idCategory == prd.idCategory

/-- `ingredients LIKE '%term%'` — `NULL LIKE` anything is not true. -/
def optContainsCI (hay : Option String) (pat : String) : Bool :=
  match hay with
  | some s => containsCI s pat
  | none => false

/-- The `WHERE` clause of the `FilteredProducts` CTE, condition by
condition. -/
def listWhereB (db : DB) (acc : Int) (p : ListParams)
    (prd : Product) (cnf : Confectioner) (cat : Category) : Bool :=
  prd.idAccount == acc &&
  !prd.deleted &&
  prd.active &&
  !cnf.deleted &&
  !cat.deleted &&
  (!p.availableOnly || prd.available) &&
  (match p.categoryIds with
   | none => true
   | some ids => ids.contains prd.idCategory) &&
  (match p.confectionerIds with
   | none => true
   | some ids => ids.contains prd.idConfectioner) &&
  (match p.minPrice with
   | none => true
   | some m => m ≤ prd.basePrice) &&
  (match p.maxPrice with
   | none => true
   | some m => prd.basePrice ≤ m) &&
  (match p.searchTerm with
   | none => true
   | some t =>
     containsCI prd.name t || containsCI prd.description t ||
       optContainsCI prd.ingredients t) &&
  (match p.flavorIds with
   | none => true
   | some ids => db.productFlavors.any fun pf =>
       pf.idAccount == prd.idAccount && pf.idProduct == prd.idProduct &&
         ids.contains pf.idFlavor && pf.available) &&
  (match p.sizeIds with
   | none => true
   | some ids => db.productSizes.any fun ps =>
       ps.idAccount == prd.idAccount && ps.idProduct == prd.idProduct &&
         ids.contains ps.idSize && ps.available)

/-- The row guard of the `FilteredProducts` CTE: the `JOIN ... ON`
conditions together with the `WHERE` clause. -/
def listGuardB (db : DB) (acc : Int) (p : ListParams) (prd : Product)
    (cnf : Confectioner) (cat : Category) : Bool :=
  listJoinB prd cnf cat && listWhereB db acc p prd cnf cat

/-- The `FilteredProducts` CTE: the product/confectioner/category join
restricted by the `WHERE` clause, projected to the output columns. -/
def filteredProducts (db : DB) (acc : Int) (p : ListParams) : List ListRow :=
  db.products.flatMap fun prd =>
    db.confectioners.flatMap fun cnf =>
      db.categories.flatMap fun cat =>
        if listGuardB db acc p prd cnf cat then [mkListRow prd cnf cat] else []

/-- The five-key `ORDER BY` of `spProductList`:
`CASE sortBy = preco_menor: basePrice ASC`, `CASE preco_maior: basePrice
DESC`, `CASE melhor_avaliados: averageRating DESC`, `CASE relevancia:
averageRating DESC`, then `name ASC`. -/
def listOrderCmp (s : String) : ListRow → ListRow → Ordering :=
  compareLex (caseCmp (s == "preco_menor") (cmpOn ListRow.basePrice))
    (compareLex (caseCmp (s == "preco_maior") (cmpOnDesc ListRow.basePrice))
      (compareLex (caseCmp (s == "melhor_avaliados") (cmpOnDesc ListRow.averageRating))
        (compareLex (caseCmp (s == "relevancia") (cmpOnDesc ListRow.averageRating))
          (cmpOnStr ListRow.name))))

structure ProductListResult where
  products : List ListRow
  totalCount : Nat
  totalPages : Int
deriving DecidableEq

/-- `functional.spProductList`: page-size fallback, filtering, ordering,
`OFFSET/FETCH` pagination, and the count over the same filtered set. -/
def spProductList (db : DB) (acc : Int) (p : ListParams) :
    Except ListErr ProductListResult :=
  if p.page < 1 then .error .invalidPageNumber
  else
    let eps : Int := if p.pageSize = 12 ∨ p.pageSize = 24 ∨ p.pageSize = 36 then p.pageSize else 12
    let offset : Int := (p.page - 1) * eps
    let rows := filteredProducts db acc p
    let total := rows.length
    .ok { products := ((sortByCmp (listOrderCmp p.sortBy) rows).drop offset.toNat).take eps.toNat
          totalCount := total
          totalPages := ((total : Int) + eps - 1) / eps }

/-! ## Catalog query engine: `functional.spProductGet` and the
`productGet` service -/

inductive GetErr where
  | productNotFound
deriving DecidableEq

/-- A row of the `Flavors` result set of `spProductGet`. -/
structure FlavorRow where
  idFlavor : Int
  name : String
  available : Bool
deriving DecidableEq

/-- A row of the `Sizes` result set of `spProductGet`. -/
structure SizeRow where
  idSize : Int
  name : String
  description : String
  priceModifier : Int
  available : Bool
deriving DecidableEq

/-- A row of the `Reviews` result set of `spProductGet`. -/
structure ReviewRow where
  idReview : Int
  customerName : String
  rating : Int
  comment : Option String
  dateCreated : Int
deriving DecidableEq

/-- The `ProductDetails` result-set row of `spProductGet` (serialized
columns still raw). -/
structure ProductDetailsRow where
  idProduct : Int
  name : String
  description : String
  ingredients : Option String
  nutritionalInfo : Option String
  basePrice : Int
  promotionalPrice : Option Int
  mainImage : String
  imageGallery : Option String
  averageRating : Int
  totalReviews : Int
  preparationTime : String
  available : Bool
  idConfectioner : Int
  confectionerName : String
  confectionerPhoto : Option String
  confectionerRating : Int
  confectionerProductsSold : Int
deriving DecidableEq

structure ProductGetOut where
  product : List ProductDetailsRow
  flavors : List FlavorRow
  sizes : List SizeRow
  reviews : List ReviewRow
deriving DecidableEq

/-- `functional.spProductGet`: existence check then the four result
sets. -/
def spProductGet (db : DB) (acc prd : Int) : Except GetErr ProductGetOut :=
  if ¬ db.products.any fun q => q.idProduct == prd && q.idAccount == acc && !q.deleted then
    .error .productNotFound
  else
    .ok
      { product :=
          db.products.flatMap fun q =>
            db.confectioners.flatMap fun cnf =>
              if (q.idProduct == prd && q.idAccount == acc && !q.deleted) &&
                  (cnf.idAccount == q.idAccount && cnf.idConfectioner == q.idConfectioner) then
                [{ idProduct := q.idProduct, name := q.name, description := q.description
                   ingredients := q.ingredients, nutritionalInfo := q.nutritionalInfo
                   basePrice := q.basePrice, promotionalPrice := q.promotionalPrice
                   mainImage := q.mainImage, imageGallery := q.imageGallery
                   averageRating := q.averageRating, totalReviews := q.totalReviews
                   preparationTime := q.preparationTime, available := q.available
                   idConfectioner := cnf.idConfectioner, confectionerName := cnf.name
                   confectionerPhoto := cnf.photo, confectionerRating := cnf.averageRating
                   confectionerProductsSold := cnf.totalProductsSold }]
              else []
        flavors :=
          sortByCmp (cmpOnStr FlavorRow.name)
            (db.productFlavors.flatMap fun pf =>
              db.flavors.flatMap fun flv =>
                if (flv.idAccount == pf.idAccount && flv.idFlavor == pf.idFlavor) &&
                    (pf.idAccount == acc && pf.idProduct == prd && !flv.deleted) then
                  [{ idFlavor := flv.idFlavor, name := flv.name, available := pf.available }]
                else [])
        sizes :=
          sortByCmp (cmpOn SizeRow.priceModifier)
            (db.productSizes.flatMap fun ps =>
              db.sizes.flatMap fun siz =>
                if (siz.idAccount == ps.idAccount && siz.idSize == ps.idSize) &&
                    (ps.idAccount == acc && ps.idProduct == prd && !siz.deleted) then
                  [{ idSize := siz.idSize, name := siz.name, description := siz.description
                     priceModifier := siz.priceModifier, available := ps.available }]
                else [])
        reviews :=
          sortByCmp (cmpOnDesc ReviewRow.dateCreated)
            (db.reviews.flatMap fun rev =>
              if rev.idAccount == acc && rev.idProduct == prd && !rev.deleted then
                [{ idReview := rev.idReview, customerName := rev.customerName
                   rating := rev.rating, comment := rev.comment
                   dateCreated := rev.dateCreated }]
              else []) }

/-- The decoded form of a serialized JSON column, as far as the service
layer distinguishes it. -/
inductive Json where
  | null
  | arr (elems : List String)
  | obj (raw : String)
deriving DecidableEq

/-- JavaScript `JSON.parse` applied to a possibly-`null` column value:
`JSON.parse(null)` coerces `null` to the string `"null"` and yields JSON
`null`; a present string is decoded by the external parser `decode`. -/
def jsJsonParse (decode : String → Json) : Option String → Json
  | some s => decode s
  | none => Json.null

/-- JavaScript truthiness of a nullable string column (`null` and the
empty string are falsy). -/
def truthy : Option String → Bool
  | some s => !s.isEmpty
  | none => false

/-- The decoded payload assembled by the `productGet` service. -/
structure ProductDetailsResponse where
  row : ProductDetailsRow
  ingredients : Json
  nutritionalInfo : Json
  imageGallery : Json
  flavors : List FlavorRow
  sizes : List SizeRow
  reviews : List ReviewRow
deriving DecidableEq

/-- The `productGet` service (`productRules.ts`): runs `spProductGet`,
takes `product.recordset[0]`, decodes `ingredients` unconditionally, and
decodes `nutritionalInfo`/`imageGallery` behind truthiness guards
(`x ? JSON.parse(x) : null` and `x ? JSON.parse(x) : []`).  `none` models
the `recordset[0]` access failing on an empty product result set. -/
def productGet (decode : String → Json) (db : DB) (acc prd : Int) :
    Except GetErr (Option ProductDetailsResponse) :=
  (spProductGet db acc prd).map fun out =>
    match out.product with
    | [] => none
    | row :: _ =>
      some
        { row := row
          ingredients := jsJsonParse decode row.ingredients
          nutritionalInfo := if truthy row.nutritionalInfo then jsJsonParse decode row.nutritionalInfo else Json.null
          imageGallery := if truthy row.imageGallery then jsJsonParse decode row.imageGallery else Json.arr []
          flavors := out.flavors
          sizes := out.sizes
          reviews := out.reviews }

/-! ## Catalog query engine: `functional.spProductRelated` and the
`productRelated` service -/

inductive RelErr where
  | productNotFound
deriving DecidableEq

/-- A row of the result sets of `spProductRelated` (the `priority` column
is not projected). -/
structure RelRow where
  idProduct : Int
  name : String
  basePrice : Int
  promotionalPrice : Option Int
  mainImage : String
  averageRating : Int
  totalReviews : Int
  confectionerName : String
deriving DecidableEq

def mkRelRow (prd : Product) (cnf : Confectioner) : RelRow :=
  { idProduct := prd.idProduct, name := prd.name, basePrice := prd.basePrice
    promotionalPrice := prd.promotionalPrice, mainImage := prd.mainImage
    averageRating := prd.averageRating, totalReviews := prd.totalReviews
    confectionerName := cnf.name }

/-- The candidate conditions shared by both queries of `spProductRelated`:
same tenant, not the reference product, non-deleted, active, available,
with a non-deleted confectioner. -/
def relCandB (acc refPrd : Int) (prd : Product) (cnf : Confectioner) : Bool :=
  prd.idAccount == acc && prd.idProduct != refPrd &&
    !prd.deleted && prd.active && prd.available &&
    cnf.idAccount == prd.idAccount && cnf.idConfectioner == prd.idConfectioner &&
    !cnf.deleted

/-- The `priority` column: 1 same confectioner, 2 same category, 3
otherwise. -/
def relPriority (refConf refCat : Int) (prd : Product) : Int :=
  if prd.idConfectioner = refConf then 1
  else if prd.idCategory = refCat then 2
  else 3

/-- A related row paired with its priority (the CTE row before the final
projection). -/
structure RelCand where
  row : RelRow
  priority : Int
  idProduct : Int
deriving DecidableEq

/-- The `RelatedProducts` CTE: candidates sharing the confectioner or the
category of the reference product. -/
def relatedCands (db : DB) (acc refPrd refConf refCat : Int) : List RelCand :=
  db.products.flatMap fun prd =>
    db.confectioners.flatMap fun cnf =>
      if relCandB acc refPrd prd cnf &&
          (prd.idConfectioner == refConf || prd.idCategory == refCat) then
        [{ row := mkRelRow prd cnf, priority := relPriority refConf refCat prd
           idProduct := prd.idProduct }]
      else []

/-- `ORDER BY priority ASC, averageRating DESC, totalReviews DESC`. -/
def relOrderCmp : RelCand → RelCand → Ordering :=
  compareLex (cmpOn RelCand.priority)
    (compareLex (cmpOnDesc fun c => c.row.averageRating)
      (cmpOnDesc fun c => c.row.totalReviews))

/-- `ORDER BY averageRating DESC, totalReviews DESC` of the backfill
query. -/
def backfillOrderCmp : RelRow → RelRow → Ordering :=
  compareLex (cmpOnDesc RelRow.averageRating) (cmpOnDesc RelRow.totalReviews)

/-- `functional.spProductRelated`: the reference-product check, the
related-candidates result set (`TOP (@limit)`), and — when it holds fewer
than `@limit` rows — the popularity backfill result set excluding the
already-related products. -/
def spProductRelated (db : DB) (acc refPrd : Int) (limit : Int) :
    Except RelErr (List RelRow × List RelRow) :=
  match db.products.find? fun q => q.idProduct == refPrd && q.idAccount == acc && !q.deleted with
  | none => .error .productNotFound
  | some refProduct =>
    let refConf := refProduct.idConfectioner
    let refCat := refProduct.idCategory
    let cands := relatedCands db acc refPrd refConf refCat
    let firstSet := ((sortByCmp relOrderCmp cands).take limit.toNat).map RelCand.row
    if firstSet.length < limit.toNat then
      let remaining := limit.toNat - firstSet.length
      let backfill :=
        db.products.flatMap fun prd =>
          db.confectioners.flatMap fun cnf =>
            if relCandB acc refPrd prd cnf &&
                !((cands.map RelCand.idProduct).contains prd.idProduct) then
              [mkRelRow prd cnf]
            else []
      .ok (firstSet, (sortByCmp backfillOrderCmp backfill).take remaining)
    else
      .ok (firstSet, [])

/-- The `productRelated` service (`productRules.ts`): calls the procedure
with `ExpectedReturn.Multi` and returns only `result[0]` — the first
result set; a backfill result set is discarded. -/
def productRelated (db : DB) (acc refPrd : Int) (limit : Int) :
    Except RelErr (List RelRow) :=
  (spProductRelated db acc refPrd limit).map fun sets => sets.1

/-- `productSize` rows reference existing `size` rows of the same account
(foreign-key integrity of the schema). -/
def FkProductSizes (db : DB) : Prop :=
  ∀ ps ∈ db.productSizes, ∃ s ∈ db.sizes, s.idAccount = ps.idAccount ∧ s.idSize = ps.idSize

instance (db : DB) : Decidable (CartIdsUnique db) :=
  List.instDecidablePairwise _

instance (db : DB) : Decidable (CartKeysUnique db) :=
  List.instDecidablePairwise _

instance (db : DB) : Decidable (FkProductSizes db) :=
  List.decidableBAll _ _

/-! ## Concrete stores for evaluation -/

/-- A catalog account with one product (effective price 8 after promotion),
one flavor option and one size option (modifier 2). -/
def catalogProduct : Product :=
  { idProduct := 1, idAccount := 1, idConfectioner := 1, idCategory := 1
    name := "Bolo", description := "d", ingredients := none, nutritionalInfo := none
    basePrice := 10, promotionalPrice := some 8, mainImage := "m", imageGallery := none
    averageRating := 4, totalReviews := 2, preparationTime := "1d"
    available := true, active := true, deleted := false }

def catalogSize : Size :=
  { idSize := 30, idAccount := 1, name := "M", description := "d"
    priceModifier := 2, deleted := false }

def catalogBase : DB :=
  { products := [catalogProduct]
    confectioners := []
    categories := []
    flavors := []
    sizes := [catalogSize]
    productFlavors := [{ idAccount := 1, idProduct := 1, idFlavor := 20, available := true }]
    productSizes := [{ idAccount := 1, idProduct := 1, idSize := 30, available := true }]
    reviews := []
    cart := []
    nextCartId := 101 }

/-- The add-to-cart request used in the concrete cart scenarios. -/
def cartReq (qty : Int) (notes : Option String) : CartArgs :=
  { idAccount := 1, idUser := 1, idProduct := 1, idFlavor := 20, idSize := 30
    quantity := qty, notes := notes }

/-- An existing cart line for the catalog product: quantity 3, priced at
the current unit price 10 (= promotional 8 + modifier 2). -/
def mergeLine : CartLine :=
  { idCart := 100, idAccount := 1, idUser := 1, idProduct := 1
    idFlavor := 20, idSize := 30, quantity := 3
    unitPrice := some 10, totalPrice := some 30, notes := some "old" }

/-- Store with the existing line `mergeLine`. -/
def dbMerge : DB := { catalogBase with cart := [mergeLine] }

/-- A cart line written before the promotion existed: its snapshot unit
price 12 (= base 10 + modifier 2) no longer matches the current catalog
price 10 (= promotional 8 + modifier 2). -/
def staleLine : CartLine :=
  { idCart := 100, idAccount := 1, idUser := 1, idProduct := 1
    idFlavor := 20, idSize := 30, quantity := 2
    unitPrice := some 12, totalPrice := some 24, notes := none }

/-- Store with the pre-promotion line `staleLine`. -/
def dbStale : DB := { catalogBase with cart := [staleLine] }

/-- The store after merging 3 more units into `staleLine`: quantity 5,
totalPrice recomputed from the fresh unit price 10, stored unitPrice left
at the stale 12. -/
def dbStaleAfter : DB :=
  { catalogBase with
    cart := [{ idCart := 100, idAccount := 1, idUser := 1, idProduct := 1
               idFlavor := 20, idSize := 30, quantity := 5
               unitPrice := some 12, totalPrice := some 50, notes := none }] }

/-- Store for the race scenario: the same catalog with an empty cart. -/
def dbRace : DB := { catalogBase with nextCartId := 1 }

/-- The pre-transaction state both racing calls compute against `dbRace`:
fresh unit price 10, no existing line found. -/
def racePrep : CartPrep := { unitPrice := some 10, found := none }

/-- The store after the first racing insert (quantity 3). -/
def dbRace1 : DB :=
  { catalogBase with
    cart := [{ idCart := 1, idAccount := 1, idUser := 1, idProduct := 1
               idFlavor := 20, idSize := 30, quantity := 3
               unitPrice := some 10, totalPrice := some 30, notes := none }]
    nextCartId := 2 }

/-- The store after the second racing insert (quantity 4): two lines for
the same (account, user, product, flavor, size) key. -/
def dbRace2 : DB :=
  { catalogBase with
    cart := [{ idCart := 1, idAccount := 1, idUser := 1, idProduct := 1
               idFlavor := 20, idSize := 30, quantity := 3
               unitPrice := some 10, totalPrice := some 30, notes := none },
             { idCart := 2, idAccount := 1, idUser := 1, idProduct := 1
               idFlavor := 20, idSize := 30, quantity := 4
               unitPrice := some 10, totalPrice := some 40, notes := none }]
    nextCartId := 3 }

/-- The store after inserting a fresh line of quantity 2 into the empty
cart of `catalogBase`. -/
def dbAfterInsert : DB :=
  { catalogBase with
    cart := [{ idCart := 101, idAccount := 1, idUser := 1, idProduct := 1
               idFlavor := 20, idSize := 30, quantity := 2
               unitPrice := some 10, totalPrice := some 20, notes := none }]
    nextCartId := 102 }

/-- No two confectioner rows share the (account, confectioner) key. -/
def ConfKeysUnique (db : DB) : Prop :=
  db.confectioners.Pairwise fun x y =>
    ¬ (x.idAccount = y.idAccount ∧ x.idConfectioner = y.idConfectioner)

/-- No two category rows share the (account, category) key. -/
def CatKeysUnique (db : DB) : Prop :=
  db.categories.Pairwise fun x y =>
    ¬ (x.idAccount = y.idAccount ∧ x.idCategory = y.idCategory)

instance (db : DB) : Decidable (ConfKeysUnique db) :=
  List.instDecidablePairwise _

instance (db : DB) : Decidable (CatKeysUnique db) :=
  List.instDecidablePairwise _

/-- Does a product contribute a row to `FilteredProducts`?  (It has a
joinable confectioner and category pair passing the `WHERE` clause.) -/
def productPassesB (db : DB) (acc : Int) (p : ListParams) (prd : Product) : Bool :=
  db.confectioners.any fun cnf =>
    db.categories.any fun cat => listGuardB db acc p prd cnf cat

/-! ## Sort order relations as the specification words them

`relevance`/`top_rated`: average rating descending, ties by name
ascending.  `price_asc`/`price_desc`: base price, ties by name ascending.
The remaining sort keys of the API enum (`mais_vendidos`, `mais_recentes`)
have no `ORDER BY` branch in the procedure and fall through to name
ascending alone. -/

def ratingThenNameRel (a b : ListRow) : Prop :=
  b.averageRating < a.averageRating ∨
    (a.averageRating = b.averageRating ∧ cmpStr a.name b.name ≠ .gt)

def priceAscThenNameRel (a b : ListRow) : Prop :=
  a.basePrice < b.basePrice ∨ (a.basePrice = b.basePrice ∧ cmpStr a.name b.name ≠ .gt)

def priceDescThenNameRel (a b : ListRow) : Prop :=
  b.basePrice < a.basePrice ∨ (a.basePrice = b.basePrice ∧ cmpStr a.name b.name ≠ .gt)

def nameAscRel (a b : ListRow) : Prop := cmpStr a.name b.name ≠ .gt

/-! ## Concrete catalogs for evaluation -/

/-- An empty store. -/
def dbEmpty : DB :=
  { products := [], confectioners := [], categories := [], flavors := []
    sizes := [], productFlavors := [], productSizes := [], reviews := []
    cart := [], nextCartId := 1 }

def mkCatalogProduct (idp : Int) (name : String) (rating reviews price : Int)
    (cat : Int := 1) (cnf : Int := 1) (available : Bool := true)
    (deleted : Bool := false) : Product :=
  { idProduct := idp, idAccount := 1, idConfectioner := cnf, idCategory := cat
    name := name, description := "d", ingredients := none, nutritionalInfo := none
    basePrice := price, promotionalPrice := none, mainImage := "m", imageGallery := none
    averageRating := rating, totalReviews := reviews, preparationTime := "1d"
    available := available, active := true, deleted := deleted }

def confRow (idc : Int) (name : String) : Confectioner :=
  { idConfectioner := idc, idAccount := 1, name := name, photo := none
    averageRating := 5, totalProductsSold := 9, deleted := false }

def catRow (idc : Int) (name : String) : Category :=
  { idCategory := idc, idAccount := 1, name := name, deleted := false }

/-- Catalog for the listing witness: one passing product and one
soft-deleted product in the same category. -/
def dbList : DB :=
  { dbEmpty with
    products := [mkCatalogProduct 1 "Alpha" 4 7 100,
                 mkCatalogProduct 2 "Beta" 5 9 200 1 1 true true]
    confectioners := [confRow 1 "Carla"]
    categories := [catRow 1 "Cakes"] }

/-- Catalog with two products where every non-name attribute of product 2
dominates product 1. -/
def dbSortA : DB :=
  { dbEmpty with
    products := [mkCatalogProduct 1 "Alpha" 1 0 50, mkCatalogProduct 2 "Beta" 5 50 300]
    confectioners := [confRow 1 "Carla"]
    categories := [catRow 1 "Cakes"] }

/-- The same catalog with only the two product names swapped. -/
def dbSortB : DB :=
  { dbEmpty with
    products := [mkCatalogProduct 1 "Beta" 1 0 50, mkCatalogProduct 2 "Alpha" 5 50 300]
    confectioners := [confRow 1 "Carla"]
    categories := [catRow 1 "Cakes"] }

/-- Catalog for the related-products scenario: reference product 100
(confectioner 1, category 1), one same-category candidate (product 2) and
one unrelated candidate (product 3, category 9, confectioner 3). -/
def dbRel : DB :=
  { dbEmpty with
    products := [mkCatalogProduct 100 "Ref" 3 1 100,
                 mkCatalogProduct 2 "Rel" 4 10 100 1 2,
                 mkCatalogProduct 3 "Far" 5 20 100 9 3]
    confectioners := [confRow 1 "Carla", confRow 2 "Dora", confRow 3 "Edu"]
    categories := [catRow 1 "Cakes", catRow 9 "Pies"] }

/-- Catalog for product details: the product's serialized columns are all
`NULL` and it has no option rows or reviews. -/
def dbDetails : DB :=
  { dbEmpty with
    products := [mkCatalogProduct 1 "Alpha" 4 7 100]
    confectioners := [confRow 1 "Carla"]
    categories := [catRow 1 "Cakes"] }

/-- Catalog for the not-found witness: one soft-deleted product and one
product of another tenant share the probed id space. -/
def dbGone : DB :=
  { dbEmpty with
    products := [mkCatalogProduct 7 "Ghost" 4 7 100 1 1 true true,
                 { mkCatalogProduct 8 "Other" 4 7 100 with idAccount := 2 }]
    confectioners := [confRow 1 "Carla"]
    categories := [catRow 1 "Cakes"] }

/-! ## Comparator laws

`Batteries.TransCmp` instances for the comparators, so that every
`ORDER BY` model is a total preorder and its insertion sort is sorted. -/

theorem cmpInt_swap (a b : Int) : (cmpInt a b).swap = cmpInt b a := by
  unfold cmpInt
  rcases lt_trichotomy a b with h | h | h
  · simp [h, not_lt.2 h.le, Ordering.swap]
  · simp [h, lt_irrefl, Ordering.swap]
  · simp [h, not_lt.2 h.le, Ordering.swap]

theorem cmpInt_le_trans {a b c : Int} (h₁ : cmpInt a b ≠ .gt) (h₂ : cmpInt b c ≠ .gt) :
    cmpInt a c ≠ .gt := by
  unfold cmpInt at *
  split_ifs at * <;> simp_all <;> omega

instance : Batteries.TransCmp cmpInt where
  symm := cmpInt_swap
  le_trans := cmpInt_le_trans

theorem cmpChars_swap : ∀ a b : List Char, (cmpChars a b).swap = cmpChars b a
  | [], [] => rfl
  | [], _ :: _ => rfl
  | _ :: _, [] => rfl
  | a :: as, b :: bs => by
    simp only [cmpChars]
    rcases lt_trichotomy a.toNat b.toNat with h | h | h
    · simp [h, not_lt.2 h.le, Ordering.swap]
    · simp [h, lt_irrefl, cmpChars_swap as bs]
    · simp [h, not_lt.2 h.le, Ordering.swap]

theorem cmpChars_le_trans :
    ∀ a b c : List Char, cmpChars a b ≠ .gt → cmpChars b c ≠ .gt → cmpChars a c ≠ .gt
  | [], _, [], _, _ => by simp [cmpChars]
  | [], _, _ :: _, _, _ => by simp [cmpChars]
  | a :: as, [], _, h₁, _ => by simp [cmpChars] at h₁
  | a :: as, b :: bs, [], _, h₂ => by simp [cmpChars] at h₂
  | a :: as, b :: bs, c :: cs, h₁, h₂ => by
    simp only [cmpChars] at *
    split_ifs at * <;> simp_all <;>
      first
        | omega
        | exact cmpChars_le_trans as bs cs h₁ h₂

instance : Batteries.TransCmp cmpStr where
  symm a b := cmpChars_swap a.data b.data
  le_trans := cmpChars_le_trans _ _ _

instance (f : α → Int) : Batteries.TransCmp (cmpOn f) where
  symm a b := cmpInt_swap (f a) (f b)
  le_trans := cmpInt_le_trans

instance (f : α → Int) : Batteries.TransCmp (cmpOnDesc f) where
  symm a b := cmpInt_swap (f b) (f a)
  le_trans h₁ h₂ := cmpInt_le_trans h₂ h₁

instance (f : α → String) : Batteries.TransCmp (cmpOnStr f) where
  symm a b := cmpChars_swap (f a).data (f b).data
  le_trans := cmpChars_le_trans _ _ _

instance (cond : Bool) (c : α → α → Ordering) [Batteries.TransCmp c] :
    Batteries.TransCmp (caseCmp cond c) where
  symm a b := by
    unfold caseCmp
    cases cond
    · rfl
    · exact Batteries.OrientedCmp.symm a b
  le_trans := by
    intro x y z h₁ h₂
    unfold caseCmp at *
    cases cond
    · simp
    · exact @Batteries.TransCmp.le_trans _ c _ _ _ _ (by simpa using h₁) (by simpa using h₂)

/-! ## Sort properties -/

theorem leOfCmp_total (c : α → α → Ordering) [Batteries.TransCmp c] (a b : α) :
    leOfCmp c a b ∨ leOfCmp c b a := by
  by_cases h : c a b = .gt
  · right
    intro hba
    have hs := @Batteries.OrientedCmp.symm _ c _ a b
    rw [h] at hs
    rw [← hs] at hba
    simp [Ordering.swap] at hba
  · exact Or.inl h

theorem sortByCmp_sorted (c : α → α → Ordering) [Batteries.TransCmp c] (l : List α) :
    List.Sorted (leOfCmp c) (sortByCmp c l) := by
  haveI : IsTotal α (leOfCmp c) := ⟨leOfCmp_total c⟩
  haveI : IsTrans α (leOfCmp c) := ⟨fun _ _ _ h₁ h₂ => @Batteries.TransCmp.le_trans _ c _ _ _ _ h₁ h₂⟩
  exact List.sorted_insertionSort _ l

theorem sortByCmp_perm (c : α → α → Ordering) (l : List α) :
    (sortByCmp c l).Perm l :=
  List.perm_insertionSort _ l

theorem mem_sortByCmp {c : α → α → Ordering} {l : List α} {x : α} :
    x ∈ sortByCmp c l ↔ x ∈ l :=
  (sortByCmp_perm c l).mem_iff

theorem length_sortByCmp (c : α → α → Ordering) (l : List α) :
    (sortByCmp c l).length = l.length :=
  (sortByCmp_perm c l).length_eq

/-! ## List helper lemmas -/

theorem countP_map_congr {f : α → α} {p : α → Bool} :
    ∀ {l : List α}, (∀ c ∈ l, p (f c) = p c) → (l.map f).countP p = l.countP p
  | [], _ => rfl
  | x :: t, h => by
    simp only [List.map_cons, List.countP_cons]
    rw [countP_map_congr fun c hc => h c (List.mem_cons_of_mem _ hc),
      h x (List.mem_cons_self x t)]

theorem countP_eq_one_of_find? {p : α → Bool} :
    ∀ {l : List α} {x : α}, l.Pairwise (fun u v => ¬ (p u = true ∧ p v = true)) →
      l.find? p = some x → l.countP p = 1
  | [], _, _, hfind => by simp at hfind
  | y :: t, x, hpw, hfind => by
    rcases List.pairwise_cons.1 hpw with ⟨hy, ht⟩
    by_cases hpy : p y = true
    · have ht0 : t.countP p = 0 := by
        rw [List.countP_eq_zero]
        intro c hc hpc
        exact hy c hc ⟨hpy, hpc⟩
      simp [List.countP_cons, hpy, ht0]
    · rw [List.find?_cons_of_neg _ (by simpa using hpy)] at hfind
      simp [List.countP_cons, hpy, countP_eq_one_of_find? ht hfind]

theorem all_eq_of_find? {p : α → Bool} :
    ∀ {l : List α} {x : α}, l.Pairwise (fun u v => ¬ (p u = true ∧ p v = true)) →
      l.find? p = some x → ∀ c ∈ l, p c = true → c = x
  | [], _, _, hfind => by simp at hfind
  | y :: t, x, hpw, hfind => by
    rcases List.pairwise_cons.1 hpw with ⟨hy, ht⟩
    intro c hc hpc
    by_cases hpy : p y = true
    · rw [List.find?_cons_of_pos _ hpy] at hfind
      cases hfind
      rcases List.mem_cons.1 hc with rfl | hct
      · rfl
      · exact absurd ⟨hpy, hpc⟩ (hy c hct)
    · rw [List.find?_cons_of_neg _ (by simpa using hpy)] at hfind
      rcases List.mem_cons.1 hc with rfl | hct
      · exact absurd hpc hpy
      · exact all_eq_of_find? ht hfind c hct hpc

theorem mem_eq_of_pairwise_ne {f : α → Int} :
    ∀ {l : List α} {x : α}, l.Pairwise (fun u v => f u ≠ f v) → x ∈ l →
      ∀ c ∈ l, f c = f x → c = x
  | [], _, _, hmem => by simp at hmem
  | y :: t, x, hpw, hmem => by
    rcases List.pairwise_cons.1 hpw with ⟨hy, ht⟩
    intro c hc hfc
    rcases List.mem_cons.1 hmem with rfl | hxt
    · rcases List.mem_cons.1 hc with rfl | hct
      · rfl
      · exact absurd hfc.symm (hy c hct)
    · rcases List.mem_cons.1 hc with rfl | hct
      · exact absurd (hy x hxt) (by simp [hfc])
      · exact mem_eq_of_pairwise_ne ht hxt c hct hfc

/-! ## Cart lemmas -/

theorem keyMatchB_fields {a : CartArgs} {u : CartLine} (h : keyMatchB a u = true) :
    u.idAccount = a.idAccount ∧ u.idUser = a.idUser ∧ u.idProduct = a.idProduct ∧
      u.idFlavor = a.idFlavor ∧ u.idSize = a.idSize := by
  simp only [keyMatchB, Bool.and_eq_true, beq_iff_eq] at h
  exact ⟨h.1.1.1.1, h.1.1.1.2, h.1.1.2, h.1.2, h.2⟩

/-- Two cart lines matching the same call key share the natural key. -/
theorem cartKeys_pairwise {db : DB} {a : CartArgs} (h : CartKeysUnique db) :
    db.cart.Pairwise fun u v => ¬ (keyMatchB a u = true ∧ keyMatchB a v = true) := by
  refine h.imp fun {u v} huv ⟨hu, hv⟩ => huv ?_
  obtain ⟨h1, h2, h3, h4, h5⟩ := keyMatchB_fields hu
  obtain ⟨g1, g2, g3, g4, g5⟩ := keyMatchB_fields hv
  exact ⟨h1.trans g1.symm, h2.trans g2.symm, h3.trans g3.symm, h4.trans g4.symm, h5.trans g5.symm⟩

/-- Validated inputs make the pre-transaction phase succeed with the fresh
unit price and the looked-up line. -/
theorem cartAddPrepare_ok {db : DB} {a : CartArgs}
    (hq1 : 1 ≤ a.quantity) (hq10 : a.quantity ≤ 10)
    (hp : productAvailableB db a.idAccount a.idProduct = true)
    (hf : flavorAvailableB db a.idAccount a.idProduct a.idFlavor = true)
    (hs : sizeAvailableB db a.idAccount a.idProduct a.idSize = true) :
    cartAddPrepare db a =
      .ok { unitPrice := freshUnitPrice db a.idAccount a.idProduct a.idSize
            found := (findCartLine db a).map fun c => (c.idCart, c.quantity) } := by
  unfold cartAddPrepare
  rw [if_neg (by omega), if_neg (by simp [hp]), if_neg (by simp [hf]), if_neg (by simp [hs])]

/-- Unfolding of the commit phase when the lookup found a line. -/
theorem cartAddCommit_found (db : DB) (a : CartArgs) (u : Option Int) (idc q : Int) :
    cartAddCommit db a { unitPrice := u, found := some (idc, q) } =
      if q + a.quantity > 10 then .error .quantityExceedsLimit
      else
        .ok ({ db with cart := db.cart.map (mergeUpdate a u (q + a.quantity) idc) },
          readCartRow { db with cart := db.cart.map (mergeUpdate a u (q + a.quantity) idc) } idc) :=
  rfl

/-- Unfolding of the commit phase when the lookup found nothing. -/
theorem cartAddCommit_none (db : DB) (a : CartArgs) (u : Option Int) :
    cartAddCommit db a { unitPrice := u, found := none } =
      .ok ({ db with cart := db.cart ++ [insertedLine db a u], nextCartId := db.nextCartId + 1 },
        readCartRow
          { db with cart := db.cart ++ [insertedLine db a u], nextCartId := db.nextCartId + 1 }
          db.nextCartId) :=
  rfl

/-- The merge update leaves the natural key of every row unchanged. -/
theorem keyMatchB_mergeUpdate (a : CartArgs) (u : Option Int) (nq idc : Int) (c : CartLine) :
    keyMatchB a (mergeUpdate a u nq idc c) = keyMatchB a c := by
  unfold mergeUpdate
  split <;> rfl

/-- **C1.** For a cart state holding a line with the call's
(tenant, user, product, flavor, size) key and quantity `q`, and a call of
quantity `r` that passes the availability validations: when `q + r ≤ 10`
exactly one line for the key remains, with quantity `q + r`, total price
equal to the freshly computed unit price times `q + r` (not a sum of
stored totals), and notes replaced only when the call supplied notes; when
`q + r > 10` the call fails with the quantity-exceeds-limit error and (the
transaction being rolled back) the store is unchanged. -/
theorem spCartAdd_merge_spec {db : DB} {a : CartArgs} {line : CartLine}
    (hids : CartIdsUnique db) (hkeys : CartKeysUnique db)
    (hq1 : 1 ≤ a.quantity) (hq10 : a.quantity ≤ 10)
    (hp : productAvailableB db a.idAccount a.idProduct = true)
    (hf : flavorAvailableB db a.idAccount a.idProduct a.idFlavor = true)
    (hs : sizeAvailableB db a.idAccount a.idProduct a.idSize = true)
    (hline : findCartLine db a = some line) :
    (line.quantity + a.quantity ≤ 10 →
      ∃ db' res, spCartAdd db a = .ok (db', res) ∧
        db'.cart.countP (keyMatchB a) = 1 ∧
        ∀ c ∈ db'.cart, keyMatchB a c = true →
          c.quantity = line.quantity + a.quantity ∧
          c.totalPrice = (freshUnitPrice db a.idAccount a.idProduct a.idSize).map
            (· * (line.quantity + a.quantity)) ∧
          c.notes = (match a.notes with | some n => some n | none => line.notes)) ∧
    (10 < line.quantity + a.quantity →
      spCartAdd db a = .error .quantityExceedsLimit) := by
  have hprep := cartAddPrepare_ok hq1 hq10 hp hf hs
  have hmem : line ∈ db.cart := List.mem_of_find?_eq_some hline
  have hkm : keyMatchB a line = true := List.find?_some hline
  have hpw := cartKeys_pairwise (a := a) hkeys
  have hidc : ∀ c ∈ db.cart, c.idCart = line.idCart → c = line :=
    mem_eq_of_pairwise_ne hids hmem
  have hstep : spCartAdd db a = cartAddCommit db a
      { unitPrice := freshUnitPrice db a.idAccount a.idProduct a.idSize
        found := some (line.idCart, line.quantity) } := by
    rw [spCartAdd, hprep]
    simp [Except.bind, hline]
  constructor
  · intro hle
    set u := freshUnitPrice db a.idAccount a.idProduct a.idSize with hu
    set nq := line.quantity + a.quantity with hnq
    set db' : DB := { db with cart := db.cart.map (mergeUpdate a u nq line.idCart) } with hdb'
    refine ⟨db', readCartRow db' line.idCart, ?_, ?_, ?_⟩
    · rw [hstep, cartAddCommit_found, if_neg (by omega : ¬ line.quantity + a.quantity > 10)]
    · show (db.cart.map (mergeUpdate a u nq line.idCart)).countP (keyMatchB a) = 1
      rw [countP_map_congr fun c _ => keyMatchB_mergeUpdate a u nq line.idCart c]
      exact countP_eq_one_of_find? hpw hline
    · intro c' hc' hkc'
      rcases List.mem_map.1 hc' with ⟨c, hc, rfl⟩
      by_cases hceq : c = line
      · subst hceq
        unfold mergeUpdate
        rw [if_pos (by simp)]
        exact ⟨rfl, rfl, rfl⟩
      · have hfc : mergeUpdate a u nq c.idCart c = c ∨ c.idCart ≠ line.idCart := by
          right
          intro hid
          exact hceq (hidc c hc hid)
        have hfix : mergeUpdate a u nq line.idCart c = c := by
          unfold mergeUpdate
          rw [if_neg]
          simp only [beq_iff_eq]
          intro hid
          exact hceq (hidc c hc hid)
        rw [hfix] at hkc' ⊢
        exact absurd (all_eq_of_find? hpw hline c hc hkc') hceq
  · intro hgt
    rw [hstep, cartAddCommit_found, if_pos (by omega : line.quantity + a.quantity > 10)]

/-- Witness for C1: merging quantity 4 into the existing quantity-3 line
of `dbMerge` yields one line of quantity 7 priced at the fresh unit price,
with the supplied notes. -/
theorem spCartAdd_merge_spec_witness :
    ∃ db' res, spCartAdd dbMerge (cartReq 4 (some "new")) = .ok (db', res) ∧
      db'.cart.countP (keyMatchB (cartReq 4 (some "new"))) = 1 ∧
      ∀ c ∈ db'.cart, keyMatchB (cartReq 4 (some "new")) c = true →
        c.quantity = mergeLine.quantity + (cartReq 4 (some "new")).quantity ∧
        c.totalPrice = (freshUnitPrice dbMerge 1 1 30).map
          (· * (mergeLine.quantity + (cartReq 4 (some "new")).quantity)) ∧
        c.notes = some "new" := by
  have h := @spCartAdd_merge_spec dbMerge (cartReq 4 (some "new")) mergeLine
    (by decide) (by decide) (by decide) (by decide)
    (by decide) (by decide) (by decide) (by decide)
  exact h.1 (by decide)

/-- A successful run passes every validation and uses the fresh unit
price: dissection of `spCartAdd` on a success outcome. -/
theorem spCartAdd_ok_dissect {db : DB} {a : CartArgs} {out : DB × Option CartResult}
    (h : spCartAdd db a = .ok out) :
    productAvailableB db a.idAccount a.idProduct = true ∧
    sizeAvailableB db a.idAccount a.idProduct a.idSize = true ∧
    cartAddCommit db a
      { unitPrice := freshUnitPrice db a.idAccount a.idProduct a.idSize
        found := (findCartLine db a).map fun c => (c.idCart, c.quantity) } = .ok out := by
  rw [spCartAdd] at h
  unfold cartAddPrepare at h
  split_ifs at h with h1 h2 h3 h4 <;>
    first
      | exact ⟨h2, h4, by simpa [Except.bind] using h⟩
      | simp [Except.bind] at h

/-- When the size validation passed and `productSize` rows have their
foreign key, the fresh unit price is defined. -/
theorem freshUnitPrice_isSome {db : DB} {a : CartArgs}
    (hfk : FkProductSizes db)
    (hp : productAvailableB db a.idAccount a.idProduct = true)
    (hs : sizeAvailableB db a.idAccount a.idProduct a.idSize = true) :
    ∃ u, freshUnitPrice db a.idAccount a.idProduct a.idSize = some u := by
  rcases List.any_eq_true.1 hp with ⟨p, hpmem, hppred⟩
  rcases List.any_eq_true.1 hs with ⟨ps, hpsmem, hpspred⟩
  simp only [Bool.and_eq_true, beq_iff_eq] at hppred hpspred
  rcases hfk ps hpsmem with ⟨s, hsmem, hsacc, hsid⟩
  have hbase : (db.products.find? fun q => q.idProduct == a.idProduct && q.idAccount == a.idAccount).isSome := by
    rw [List.find?_isSome]
    exact ⟨p, hpmem, by simp [hppred.1.1.1.1, hppred.1.1.1.2]⟩
  have hsize : (db.sizes.find? fun q => q.idSize == a.idSize && q.idAccount == a.idAccount).isSome := by
    rw [List.find?_isSome]
    refine ⟨s, hsmem, ?_⟩
    simp only [Bool.and_eq_true, beq_iff_eq]
    exact ⟨hsid.trans hpspred.1.2, hsacc.trans hpspred.1.1.1⟩
  rcases Option.isSome_iff_exists.1 hbase with ⟨pb, hpb⟩
  rcases Option.isSome_iff_exists.1 hsize with ⟨sb, hsb⟩
  exact ⟨pb.promotionalPrice.getD pb.basePrice + sb.priceModifier,
    by simp [freshUnitPrice, effectiveBasePrice, sizePriceModifier, hpb, hsb]⟩

/-- **C2.** Every successful `addToCart` writes its touched line using the
unit price `(promotional price if set, else base price) + size modifier`,
freshly computed from the catalog, and a total price equal to that unit
price times the line's final quantity; a newly inserted line also stores
that unit price and the requested quantity. -/
theorem spCartAdd_pricing_spec {db : DB} {a : CartArgs} {db' : DB} {res : Option CartResult}
    (hfk : FkProductSizes db)
    (h : spCartAdd db a = .ok (db', res)) :
    ∃ u, freshUnitPrice db a.idAccount a.idProduct a.idSize = some u ∧
      ∃ c ∈ db'.cart, keyMatchB a c = true ∧
        c.totalPrice = some (u * c.quantity) ∧
        (findCartLine db a = none → c.unitPrice = some u ∧ c.quantity = a.quantity) := by
  obtain ⟨hp, hs, hcommit⟩ := spCartAdd_ok_dissect h
  obtain ⟨u, hu⟩ := freshUnitPrice_isSome hfk hp hs
  rw [hu] at hcommit
  refine ⟨u, hu, ?_⟩
  cases hfind : findCartLine db a with
  | some line =>
    rw [hfind] at hcommit
    simp only [Option.map_some'] at hcommit
    rw [cartAddCommit_found] at hcommit
    by_cases hgt : line.quantity + a.quantity > 10
    · rw [if_pos hgt] at hcommit
      simp at hcommit
    · rw [if_neg hgt] at hcommit
      have hmem : line ∈ db.cart := List.mem_of_find?_eq_some hfind
      have hkm : keyMatchB a line = true := List.find?_some hfind
      injection hcommit with hpair
      injection hpair with hdb hres
      refine ⟨mergeUpdate a (some u) (line.quantity + a.quantity) line.idCart line, ?_, ?_, ?_, ?_⟩
      · rw [← hdb]
        exact List.mem_map.2 ⟨line, hmem, rfl⟩
      · rw [keyMatchB_mergeUpdate]
        exact hkm
      · unfold mergeUpdate
        rw [if_pos (by simp)]
        simp
      · intro hnone
        exact absurd hnone (by simp)
  | none =>
    rw [hfind] at hcommit
    simp only [Option.map_none'] at hcommit
    rw [cartAddCommit_none] at hcommit
    injection hcommit with hpair
    injection hpair with hdb hres
    refine ⟨insertedLine db a (some u), ?_, ?_, rfl, fun _ => ⟨rfl, rfl⟩⟩
    · rw [← hdb]
      exact List.mem_append_right _ (List.mem_singleton.2 rfl)
    · simp [insertedLine, keyMatchB]

/-- Witness for C2: inserting quantity 2 of the catalog product into the
empty cart writes unit price 10 = promotional 8 + modifier 2 and total
price 20. -/
theorem spCartAdd_pricing_spec_witness :
    ∃ u, freshUnitPrice catalogBase 1 1 30 = some u ∧
      ∃ c ∈ dbAfterInsert.cart, keyMatchB (cartReq 2 none) c = true ∧
        c.totalPrice = some (u * c.quantity) ∧
        (findCartLine catalogBase (cartReq 2 none) = none →
          c.unitPrice = some u ∧ c.quantity = (cartReq 2 none).quantity) := by
  have h := @spCartAdd_pricing_spec catalogBase (cartReq 2 none) dbAfterInsert
    (some { idCart := 101, quantity := 2, unitPrice := some 10, totalPrice := some 20 })
    (by decide) (by decide)
  exact h

/-- **C3 evaluation.** Merging into a line whose snapshot unit price (12)
predates a catalog price change: `spCartAdd` recomputes the fresh unit
price 10 and writes `totalPrice = 10 × 5 = 50`, but leaves the stored
`unitPrice` at the stale 12, so the stored row violates both
`unitPrice = fresh price` and `totalPrice = unitPrice × quantity`
(12 × 5 = 60 ≠ 50). -/
theorem spCartAdd_merge_stale_unitPrice_eval :
    spCartAdd dbStale (cartReq 3 none) =
      .ok (dbStaleAfter, some { idCart := 100, quantity := 5, unitPrice := some 12, totalPrice := some 50 }) ∧
    freshUnitPrice dbStale 1 1 30 = some 10 ∧
    (∀ c ∈ dbStaleAfter.cart,
      c.unitPrice = some 12 ∧ c.quantity = 5 ∧ c.totalPrice = some 50) ∧
    (some 50 : Option Int) ≠ (some 12).map (· * 5) ∧
    (some 12 : Option Int) ≠ some 10 := by
  refine ⟨by decide, by decide, ?_, by decide, by decide⟩
  intro c hc
  have : c = { idCart := 100, idAccount := 1, idUser := 1, idProduct := 1
               idFlavor := 20, idSize := 30, quantity := 5
               unitPrice := some 12, totalPrice := some 50, notes := none } := by
    simpa [dbStaleAfter] using hc
  rw [this]
  exact ⟨rfl, rfl, rfl⟩

/-- **C4 evaluation.** Two concurrent `addToCart` calls for the same new
key, interleaved as the source permits (each call's cart lookup runs
before `BEGIN TRAN`, with no key lock and no unique constraint): both
pre-transaction phases read the same empty cart, then both commits insert,
leaving two cart lines for one (account, user, product, flavor, size) key
with quantities 3 and 4 — not one merged line of quantity 7. -/
theorem spCartAdd_concurrent_double_insert_eval :
    cartAddPrepare dbRace (cartReq 3 none) = .ok racePrep ∧
    cartAddPrepare dbRace (cartReq 4 none) = .ok racePrep ∧
    cartAddCommit dbRace (cartReq 3 none) racePrep =
      .ok (dbRace1, some { idCart := 1, quantity := 3, unitPrice := some 10, totalPrice := some 30 }) ∧
    cartAddCommit dbRace1 (cartReq 4 none) racePrep =
      .ok (dbRace2, some { idCart := 2, quantity := 4, unitPrice := some 10, totalPrice := some 40 }) ∧
    dbRace2.cart.countP (keyMatchB (cartReq 3 none)) = 2 ∧
    dbRace2.cart.map CartLine.quantity = [3, 4] := by
  refine ⟨by decide, by decide, by decide, by decide, by decide, by decide⟩

/-! ## Counting join rows under key uniqueness -/

theorem mem_guard_singleton {c : Bool} {r x : γ} :
    x ∈ (if c then [r] else ([] : List γ)) ↔ c = true ∧ x = r := by
  cases c <;> simp

/-- A `flatMap` whose nonempty fibers are marked by a predicate that at
most one element satisfies, each fiber holding at most one row, yields at
most one row in total — exactly one when some fiber is nonempty. -/
theorem length_flatMap_unique {l : List β} {m : β → Bool} {F : β → List γ}
    (hpw : l.Pairwise fun x y => ¬ (m x = true ∧ m y = true))
    (hm : ∀ x ∈ l, F x ≠ [] → m x = true)
    (h1 : ∀ x ∈ l, (F x).length ≤ 1) :
    (l.flatMap F).length = if l.any (fun x => !(F x).isEmpty) then 1 else 0 := by
  induction l with
  | nil => rfl
  | cons x t ih =>
    rcases List.pairwise_cons.1 hpw with ⟨hx, ht⟩
    rw [List.flatMap_cons, List.length_append]
    by_cases hFx : F x = []
    · rw [hFx]
      simp only [List.length_nil, Nat.zero_add, List.any_cons, hFx, List.isEmpty_nil,
        Bool.not_true, Bool.false_or]
      exact ih ht (fun y hy => hm y (List.mem_cons_of_mem _ hy))
        (fun y hy => h1 y (List.mem_cons_of_mem _ hy))
    · have hmx := hm x (List.mem_cons_self x t) hFx
      have ht0 : t.flatMap F = [] := by
        rw [List.flatMap_eq_nil_iff]
        intro y hy
        by_contra hFy
        exact hx y hy ⟨hmx, hm y (List.mem_cons_of_mem _ hy) hFy⟩
      have hlen : (F x).length = 1 := by
        have hle := h1 x (List.mem_cons_self x t)
        have hpos : 0 < (F x).length := List.length_pos.2 hFx
        omega
      rw [ht0]
      have hne : (F x).isEmpty = false := by
        simp [List.isEmpty_iff, hFx]
      simp [List.any_cons, hne, hlen]

theorem mem_filteredProducts {db : DB} {acc : Int} {p : ListParams} {row : ListRow} :
    row ∈ filteredProducts db acc p ↔
      ∃ prd ∈ db.products, ∃ cnf ∈ db.confectioners, ∃ cat ∈ db.categories,
        listGuardB db acc p prd cnf cat = true ∧ row = mkListRow prd cnf cat := by
  simp only [filteredProducts, List.mem_flatMap, mem_guard_singleton]

theorem bool_eq_of_iff {a b : Bool} (h : a = true ↔ b = true) : a = b := by
  cases a <;> cases b <;> simp_all

theorem any_congr {l : List β} {f g : β → Bool} (h : ∀ x ∈ l, f x = g x) :
    l.any f = l.any g := by
  induction l with
  | nil => rfl
  | cons x t ih =>
    simp [List.any_cons, h x (List.mem_cons_self x t),
      ih fun y hy => h y (List.mem_cons_of_mem _ hy)]

theorem listJoinB_fields {prd : Product} {cnf : Confectioner} {cat : Category}
    (h : listJoinB prd cnf cat = true) :
    cnf.idAccount = prd.idAccount ∧ cnf.idConfectioner = prd.idConfectioner ∧
      cat.idAccount = prd.idAccount ∧ cat.idCategory = prd.idCategory := by
  simp only [listJoinB, Bool.and_eq_true, beq_iff_eq] at h
  tauto

theorem listGuardB_join {db acc p prd cnf cat} (h : listGuardB db acc p prd cnf cat = true) :
    listJoinB prd cnf cat = true := by
  simp only [listGuardB, Bool.and_eq_true] at h
  exact h.1

/-- Per product: the number of join rows it contributes to
`FilteredProducts` is 1 or 0 according to `productPassesB`, provided the
confectioner and category keys are unique. -/
theorem product_join_rows_length {db : DB} {acc : Int} {p : ListParams}
    (hconf : ConfKeysUnique db) (hcat : CatKeysUnique db) (prd : Product) :
    (db.confectioners.flatMap fun cnf =>
        db.categories.flatMap fun cat =>
          if listGuardB db acc p prd cnf cat then [mkListRow prd cnf cat] else []).length =
      if productPassesB db acc p prd then 1 else 0 := by
  have hinner : ∀ cnf, (db.categories.flatMap fun cat =>
      if listGuardB db acc p prd cnf cat then [mkListRow prd cnf cat] else []).length =
      if db.categories.any (fun cat => listGuardB db acc p prd cnf cat) then 1 else 0 := by
    intro cnf
    refine (length_flatMap_unique
      (m := fun cat => cat.idAccount == prd.idAccount && cat.idCategory == prd.idCategory)
      ?_ ?_ ?_).trans ?_
    · refine hcat.imp fun {x y} hxy ⟨hx, hy⟩ => hxy ?_
      simp only [Bool.and_eq_true, beq_iff_eq] at hx hy
      exact ⟨hx.1.trans hy.1.symm, hx.2.trans hy.2.symm⟩
    · intro x _ hne
      by_cases hg : listGuardB db acc p prd cnf x = true
      · obtain ⟨-, -, hka, hki⟩ := listJoinB_fields (listGuardB_join hg)
        simp [hka, hki]
      · rw [if_neg hg] at hne
        exact absurd rfl hne
    · intro x _
      by_cases hg : listGuardB db acc p prd cnf x = true
      · rw [if_pos hg]
        simp
      · rw [if_neg hg]
        exact Nat.zero_le 1
    · have hb : (db.categories.any fun cat =>
          !(if listGuardB db acc p prd cnf cat then [mkListRow prd cnf cat] else []).isEmpty) =
          (db.categories.any fun cat => listGuardB db acc p prd cnf cat) := by
        refine any_congr fun cat _ => bool_eq_of_iff ?_
        constructor
        · intro hne
          by_cases hg : listGuardB db acc p prd cnf cat = true
          · exact hg
          · rw [if_neg hg] at hne
            simp at hne
        · intro hg
          rw [if_pos hg]
          simp
      rw [hb]
  have houter := length_flatMap_unique
    (l := db.confectioners)
    (m := fun cnf => cnf.idAccount == prd.idAccount && cnf.idConfectioner == prd.idConfectioner)
    (F := fun cnf => db.categories.flatMap fun cat =>
      if listGuardB db acc p prd cnf cat then [mkListRow prd cnf cat] else [])
    (by
      refine hconf.imp fun {x y} hxy ⟨hx, hy⟩ => hxy ?_
      simp only [Bool.and_eq_true, beq_iff_eq] at hx hy
      exact ⟨hx.1.trans hy.1.symm, hx.2.trans hy.2.symm⟩)
    (by
      intro cnf _ hne
      rw [Ne, List.flatMap_eq_nil_iff] at hne
      push_neg at hne
      rcases hne with ⟨cat, -, hcatne⟩
      by_cases hg : listGuardB db acc p prd cnf cat = true
      · obtain ⟨hca, hci, -, -⟩ := listJoinB_fields (listGuardB_join hg)
        simp [hca, hci]
      · rw [if_neg hg] at hcatne
        exact absurd rfl hcatne)
    (by
      intro cnf _
      rw [hinner cnf]
      split <;> omega)
  rw [houter]
  have hb : (db.confectioners.any fun cnf =>
      !(db.categories.flatMap fun cat =>
          if listGuardB db acc p prd cnf cat then [mkListRow prd cnf cat] else []).isEmpty) =
      productPassesB db acc p prd := by
    unfold productPassesB
    refine any_congr fun cnf _ => bool_eq_of_iff ?_
    have hiff : ∀ l : List ListRow, (!l.isEmpty) = true ↔ l ≠ [] := by
      intro l
      cases l <;> simp
    rw [hiff, Ne, List.flatMap_eq_nil_iff]
    constructor
    · intro hne
      push_neg at hne
      rcases hne with ⟨cat, hcmem, hcatne⟩
      by_cases hg : listGuardB db acc p prd cnf cat = true
      · exact List.any_eq_true.2 ⟨cat, hcmem, hg⟩
      · rw [if_neg hg] at hcatne
        exact absurd rfl hcatne
    · intro hany
      rcases List.any_eq_true.1 hany with ⟨cat, hcmem, hg⟩
      push_neg
      exact ⟨cat, hcmem, by rw [if_pos hg]; simp⟩
  rw [hb]

/-- The size of the `FilteredProducts` CTE equals the number of the
tenant's products passing all predicates, under key uniqueness of the
joined tables. -/
theorem length_filteredProducts {db : DB} {acc : Int} {p : ListParams}
    (hconf : ConfKeysUnique db) (hcat : CatKeysUnique db) :
    (filteredProducts db acc p).length = db.products.countP (productPassesB db acc p) := by
  have hgen : ∀ l : List Product,
      (l.flatMap fun prd =>
        db.confectioners.flatMap fun cnf =>
          db.categories.flatMap fun cat =>
            if listGuardB db acc p prd cnf cat then [mkListRow prd cnf cat] else []).length =
      l.countP (productPassesB db acc p) := by
    intro l
    induction l with
    | nil => rfl
    | cons x t ih =>
      rw [List.flatMap_cons, List.length_append, ih,
        product_join_rows_length hconf hcat x, List.countP_cons]
      by_cases hc : productPassesB db acc p x = true
      · simp [hc]
        omega
      · simp [hc]
  exact hgen db.products

/-- **C5.** Every product row returned by `listProducts` satisfies all the
supplied filter predicates simultaneously (tenant-owned, non-deleted,
active, joined to a non-deleted confectioner and category, and every
supplied filter), and `totalCount` equals the number of the tenant's
products satisfying those same predicates — computed over the whole
filtered set, not the current page. -/
theorem spProductList_filter_spec {db : DB} {acc : Int} {p : ListParams}
    {res : ProductListResult}
    (hconf : ConfKeysUnique db) (hcat : CatKeysUnique db)
    (h : spProductList db acc p = .ok res) :
    (∀ row ∈ res.products, ∃ prd ∈ db.products, ∃ cnf ∈ db.confectioners,
        ∃ cat ∈ db.categories,
          listJoinB prd cnf cat = true ∧ listWhereB db acc p prd cnf cat = true ∧
            row = mkListRow prd cnf cat) ∧
    res.totalCount = db.products.countP (productPassesB db acc p) := by
  simp only [spProductList] at h
  by_cases hpg : p.page < 1
  · rw [if_pos hpg] at h
    exact absurd h (by simp)
  · rw [if_neg hpg] at h
    injection h with hres
    subst hres
    constructor
    · intro row hrow
      have h3 : row ∈ filteredProducts db acc p :=
        mem_sortByCmp.1 (List.mem_of_mem_drop (List.mem_of_mem_take hrow))
      rcases mem_filteredProducts.1 h3 with ⟨prd, hprd, cnf, hcnf, cat, hcatm, hg, hrow'⟩
      simp only [listGuardB, Bool.and_eq_true] at hg
      exact ⟨prd, hprd, cnf, hcnf, cat, hcatm, hg.1, hg.2, hrow'⟩
    · exact length_filteredProducts hconf hcat

/-- Witness for C5: on `dbList` with a category filter, the only returned
row is the passing product and `totalCount` is 1 (the deleted product is
not counted). -/
theorem spProductList_filter_spec_witness :
    (∀ row ∈ ({ products := [mkListRow (mkCatalogProduct 1 "Alpha" 4 7 100)
                    (confRow 1 "Carla") (catRow 1 "Cakes")]
                totalCount := 1, totalPages := 1 } : ProductListResult).products,
      ∃ prd ∈ dbList.products, ∃ cnf ∈ dbList.confectioners, ∃ cat ∈ dbList.categories,
        listJoinB prd cnf cat = true ∧
          listWhereB dbList 1 { categoryIds := some [1] } prd cnf cat = true ∧
          row = mkListRow prd cnf cat) ∧
    ({ products := [mkListRow (mkCatalogProduct 1 "Alpha" 4 7 100)
          (confRow 1 "Carla") (catRow 1 "Cakes")]
       totalCount := 1, totalPages := 1 } : ProductListResult).totalCount =
      dbList.products.countP (productPassesB dbList 1 { categoryIds := some [1] }) := by
  have h := @spProductList_filter_spec dbList 1 { categoryIds := some [1] }
    { products := [mkListRow (mkCatalogProduct 1 "Alpha" 4 7 100)
        (confRow 1 "Carla") (catRow 1 "Cakes")]
      totalCount := 1, totalPages := 1 }
    (by decide) (by decide) (by decide)
  exact h

/-- **C7.** A `pageSize` outside {12, 24, 36} does not fail: the call
behaves exactly as if page size 12 had been requested (offset and total
pages included), and at most 12 rows are returned. -/
theorem spProductList_pageSize_fallback {db : DB} {acc : Int} {p : ListParams}
    (h : ¬ (p.pageSize = 12 ∨ p.pageSize = 24 ∨ p.pageSize = 36)) :
    spProductList db acc p = spProductList db acc { p with pageSize := 12 } ∧
    ∀ res, spProductList db acc p = .ok res → res.products.length ≤ 12 := by
  constructor
  · simp only [spProductList]
    by_cases hpg : p.page < 1
    · rw [if_pos hpg, if_pos (show ({ p with pageSize := 12 } : ListParams).page < 1 from hpg)]
    · rw [if_neg hpg, if_neg (show ¬ ({ p with pageSize := 12 } : ListParams).page < 1 from hpg)]
      rw [if_neg h]
      rfl
  · intro res hres
    simp only [spProductList] at hres
    by_cases hpg : p.page < 1
    · rw [if_pos hpg] at hres
      exact absurd hres (by simp)
    · rw [if_neg hpg, if_neg h] at hres
      injection hres with hres
      subst hres
      exact List.length_take_le _ _

/-- Witness for C7: page size 13 behaves as page size 12 on `dbList`. -/
theorem spProductList_pageSize_fallback_witness :
    spProductList dbList 1 { pageSize := 13 } = spProductList dbList 1 { pageSize := 12 } ∧
    ∀ res, spProductList dbList 1 { pageSize := 13 } = .ok res → res.products.length ≤ 12 := by
  have h := @spProductList_pageSize_fallback dbList 1 { pageSize := 13 } (by decide)
  exact h

/-! ## Order bridging: the procedure's `ORDER BY` against the sort
relations as worded -/

instance (s : String) : Batteries.TransCmp (listOrderCmp s) := by
  unfold listOrderCmp
  infer_instance

theorem then_ne_gt {o₁ o₂ : Ordering} (h : o₁.then o₂ ≠ .gt) :
    o₁ = .lt ∨ (o₁ = .eq ∧ o₂ ≠ .gt) := by
  cases o₁ <;> simp_all [Ordering.then]

theorem cmpInt_lt {x y : Int} (h : cmpInt x y = .lt) : x < y := by
  unfold cmpInt at h
  split_ifs at h with h1 h2
  exact h1

theorem cmpInt_eq {x y : Int} (h : cmpInt x y = .eq) : x = y := by
  unfold cmpInt at h
  split_ifs at h with h1 h2
  omega

theorem ratingName_of_then {a b : ListRow}
    (h : (cmpOnDesc ListRow.averageRating a b).then (cmpOnStr ListRow.name a b) ≠ .gt) :
    ratingThenNameRel a b := by
  rcases then_ne_gt h with h1 | ⟨h1, h2⟩
  · exact Or.inl (cmpInt_lt h1)
  · exact Or.inr ⟨(cmpInt_eq h1).symm, h2⟩

theorem priceAscName_of_then {a b : ListRow}
    (h : (cmpOn ListRow.basePrice a b).then (cmpOnStr ListRow.name a b) ≠ .gt) :
    priceAscThenNameRel a b := by
  rcases then_ne_gt h with h1 | ⟨h1, h2⟩
  · exact Or.inl (cmpInt_lt h1)
  · exact Or.inr ⟨cmpInt_eq h1, h2⟩

theorem priceDescName_of_then {a b : ListRow}
    (h : (cmpOnDesc ListRow.basePrice a b).then (cmpOnStr ListRow.name a b) ≠ .gt) :
    priceDescThenNameRel a b := by
  rcases then_ne_gt h with h1 | ⟨h1, h2⟩
  · exact Or.inl (cmpInt_lt h1)
  · exact Or.inr ⟨(cmpInt_eq h1).symm, h2⟩

/-- **C8 (amended).** The returned sequence is sorted by the requested
criterion as the procedure defines it: `relevancia` and
`melhor_avaliados` by average rating descending with ties by name
ascending, `preco_menor`/`preco_maior` by base price with ties by name
ascending — while `mais_vendidos` and `mais_recentes`, which have no
`ORDER BY` branch, fall through to name ascending alone. -/
theorem spProductList_order_spec {db : DB} {acc : Int} {p : ListParams}
    {res : ProductListResult} (h : spProductList db acc p = .ok res) :
    ((p.sortBy = "relevancia" ∨ p.sortBy = "melhor_avaliados") →
      res.products.Pairwise ratingThenNameRel) ∧
    (p.sortBy = "preco_menor" → res.products.Pairwise priceAscThenNameRel) ∧
    (p.sortBy = "preco_maior" → res.products.Pairwise priceDescThenNameRel) ∧
    ((p.sortBy = "mais_vendidos" ∨ p.sortBy = "mais_recentes") →
      res.products.Pairwise nameAscRel) := by
  have hsorted : res.products.Pairwise (leOfCmp (listOrderCmp p.sortBy)) := by
    simp only [spProductList] at h
    by_cases hpg : p.page < 1
    · rw [if_pos hpg] at h
      exact absurd h (by simp)
    · rw [if_neg hpg] at h
      injection h with hres
      subst hres
      exact List.Pairwise.sublist ((List.take_sublist _ _).trans (List.drop_sublist _ _))
        (sortByCmp_sorted (listOrderCmp p.sortBy) _)
  refine ⟨?_, ?_, ?_, ?_⟩
  · rintro (hs | hs) <;> rw [hs] at hsorted
    · exact hsorted.imp fun hab => ratingName_of_then hab
    · exact hsorted.imp fun hab => ratingName_of_then hab
  · intro hs
    rw [hs] at hsorted
    exact hsorted.imp fun hab => priceAscName_of_then hab
  · intro hs
    rw [hs] at hsorted
    exact hsorted.imp fun hab => priceDescName_of_then hab
  · rintro (hs | hs) <;> rw [hs] at hsorted
    · exact hsorted.imp fun hab => hab
    · exact hsorted.imp fun hab => hab

/-- Witness for the amended C8: sorting `dbSortA` by `relevancia` returns
the rating-5 product before the rating-1 product. -/
theorem spProductList_order_spec_witness :
    ((({ sortBy := "relevancia" } : ListParams).sortBy = "relevancia" ∨
        ({ sortBy := "relevancia" } : ListParams).sortBy = "melhor_avaliados") →
      ({ products := [mkListRow (mkCatalogProduct 2 "Beta" 5 50 300) (confRow 1 "Carla") (catRow 1 "Cakes"),
                      mkListRow (mkCatalogProduct 1 "Alpha" 1 0 50) (confRow 1 "Carla") (catRow 1 "Cakes")]
         totalCount := 2, totalPages := 1 } : ProductListResult).products.Pairwise
        ratingThenNameRel) ∧
    (({ sortBy := "relevancia" } : ListParams).sortBy = "preco_menor" →
      ({ products := [mkListRow (mkCatalogProduct 2 "Beta" 5 50 300) (confRow 1 "Carla") (catRow 1 "Cakes"),
                      mkListRow (mkCatalogProduct 1 "Alpha" 1 0 50) (confRow 1 "Carla") (catRow 1 "Cakes")]
         totalCount := 2, totalPages := 1 } : ProductListResult).products.Pairwise
        priceAscThenNameRel) ∧
    (({ sortBy := "relevancia" } : ListParams).sortBy = "preco_maior" →
      ({ products := [mkListRow (mkCatalogProduct 2 "Beta" 5 50 300) (confRow 1 "Carla") (catRow 1 "Cakes"),
                      mkListRow (mkCatalogProduct 1 "Alpha" 1 0 50) (confRow 1 "Carla") (catRow 1 "Cakes")]
         totalCount := 2, totalPages := 1 } : ProductListResult).products.Pairwise
        priceDescThenNameRel) ∧
    ((({ sortBy := "relevancia" } : ListParams).sortBy = "mais_vendidos" ∨
        ({ sortBy := "relevancia" } : ListParams).sortBy = "mais_recentes") →
      ({ products := [mkListRow (mkCatalogProduct 2 "Beta" 5 50 300) (confRow 1 "Carla") (catRow 1 "Cakes"),
                      mkListRow (mkCatalogProduct 1 "Alpha" 1 0 50) (confRow 1 "Carla") (catRow 1 "Cakes")]
         totalCount := 2, totalPages := 1 } : ProductListResult).products.Pairwise
        nameAscRel) := by
  have h9 : spProductList dbSortA 1 ({ sortBy := "relevancia" } : ListParams) =
      .ok { products := [mkListRow (mkCatalogProduct 2 "Beta" 5 50 300) (confRow 1 "Carla") (catRow 1 "Cakes"),
                         mkListRow (mkCatalogProduct 1 "Alpha" 1 0 50) (confRow 1 "Carla") (catRow 1 "Cakes")]
            totalCount := 2, totalPages := 1 } := by decide
  exact spProductList_order_spec h9

/-- **C8 counterexample.** Under `mais_vendidos` (and `mais_recentes`) the
order is decided by name alone: product 2 dominates product 1 in every
non-name attribute (rating 5 vs 1, reviews 50 vs 0, price 300 vs 50), yet
with `sortBy = mais_vendidos` the output order follows the names, and
swapping only the two names reverses the output — so name is the primary
key there, not a tie-break of a best-sellers or recency criterion, while
`melhor_avaliados` does order by rating. -/
theorem spProductList_best_sellers_name_order_eval :
    (spProductList dbSortA 1 { sortBy := "mais_vendidos" }).map
      (fun r => r.products.map ListRow.idProduct) = .ok [1, 2] ∧
    (spProductList dbSortB 1 { sortBy := "mais_vendidos" }).map
      (fun r => r.products.map ListRow.idProduct) = .ok [2, 1] ∧
    (spProductList dbSortA 1 { sortBy := "mais_recentes" }).map
      (fun r => r.products.map ListRow.idProduct) = .ok [1, 2] ∧
    (spProductList dbSortB 1 { sortBy := "mais_recentes" }).map
      (fun r => r.products.map ListRow.idProduct) = .ok [2, 1] ∧
    (spProductList dbSortA 1 { sortBy := "melhor_avaliados" }).map
      (fun r => r.products.map ListRow.idProduct) = .ok [2, 1] := by
  refine ⟨by decide, by decide, by decide, by decide, by decide⟩

/-! ## Product details and related products -/

/-- **C9.** `getProductDetails` fails with the same `productNotFound`
error — a single constant carrying no further information — in all three
cases: no product with the id exists, the product with the id is
soft-deleted, and the product with the id belongs to a different
tenant. -/
theorem spProductGet_notFound_spec (db : DB) (acc prd : Int) :
    ((∀ q ∈ db.products, q.idProduct ≠ prd) →
      spProductGet db acc prd = .error .productNotFound) ∧
    ((∀ q ∈ db.products, q.idProduct = prd → q.deleted = true) →
      spProductGet db acc prd = .error .productNotFound) ∧
    ((∀ q ∈ db.products, q.idProduct = prd → q.idAccount ≠ acc) →
      spProductGet db acc prd = .error .productNotFound) := by
  have core : (∀ q ∈ db.products,
      ¬ (q.idProduct = prd ∧ q.idAccount = acc ∧ q.deleted = false)) →
      spProductGet db acc prd = .error .productNotFound := by
    intro hno
    rw [spProductGet, if_pos]
    intro hany
    rcases List.any_eq_true.1 hany with ⟨q, hq, hpred⟩
    simp only [Bool.and_eq_true, beq_iff_eq, Bool.not_eq_true'] at hpred
    exact hno q hq ⟨hpred.1.1, hpred.1.2, hpred.2⟩
  refine ⟨fun h => core fun q hq hqc => h q hq hqc.1, ?_, ?_⟩
  · intro h
    refine core fun q hq hqc => ?_
    have hdel := h q hq hqc.1
    rw [hdel] at hqc
    cases hqc.2.2
  · intro h
    exact core fun q hq hqc => h q hq hqc.1 hqc.2.1

/-- Witness for C9: a soft-deleted product id and a cross-tenant product
id both yield the identical `productNotFound` error on `dbGone`. -/
theorem spProductGet_notFound_spec_witness :
    spProductGet dbGone 1 7 = .error .productNotFound ∧
    spProductGet dbGone 1 8 = .error .productNotFound := by
  exact ⟨(spProductGet_notFound_spec dbGone 1 7).2.1 (by decide),
    (spProductGet_notFound_spec dbGone 1 8).2.2 (by decide)⟩

/-- **C10 evaluation.** For a product whose serialized columns are all
`NULL`: the `productGet` service decodes `imageGallery` to an empty list
and `nutritionalInfo` to null as the truthiness guards dictate, but
`ingredients` is passed to `JSON.parse` unguarded — `JSON.parse(null)`
parses the coerced string `"null"` and yields JSON null, not the empty
list the specification (and the declared `ingredients: string[]` response
type) require. -/
theorem productGet_null_ingredients_eval :
    productGet (fun s => Json.obj s) dbDetails 1 1 =
      .ok (some
        { row := { idProduct := 1, name := "Alpha", description := "d"
                   ingredients := none, nutritionalInfo := none
                   basePrice := 100, promotionalPrice := none
                   mainImage := "m", imageGallery := none
                   averageRating := 4, totalReviews := 7, preparationTime := "1d"
                   available := true, idConfectioner := 1
                   confectionerName := "Carla", confectionerPhoto := none
                   confectionerRating := 5, confectionerProductsSold := 9 }
          ingredients := Json.null
          nutritionalInfo := Json.null
          imageGallery := Json.arr []
          flavors := [], sizes := [], reviews := [] }) ∧
    Json.null ≠ Json.arr [] := by
  exact ⟨by decide, by decide⟩

/-- **C6 evaluation.** On `dbRel` the tenant has two eligible products
besides the reference: one same-category candidate and one unrelated
candidate.  The procedure emits the candidate in its first result set and
the backfill product in its second, but the `productRelated` service
returns only the first result set — one item where two are genuinely
available and the limit is 4. -/
theorem productRelated_drops_backfill_eval :
    spProductRelated dbRel 1 100 4 =
      .ok ([mkRelRow (mkCatalogProduct 2 "Rel" 4 10 100 1 2) (confRow 2 "Dora")],
           [mkRelRow (mkCatalogProduct 3 "Far" 5 20 100 9 3) (confRow 3 "Edu")]) ∧
    productRelated dbRel 1 100 4 =
      .ok [mkRelRow (mkCatalogProduct 2 "Rel" 4 10 100 1 2) (confRow 2 "Dora")] ∧
    dbRel.products.countP (fun prd =>
      prd.idAccount == 1 && prd.idProduct != 100 && !prd.deleted &&
        prd.active && prd.available) = 2 := by
  refine ⟨by decide, by decide, by decide⟩

end Shop
